import Mathlib

/-!
Verification of the `validador-matrices` service core (`src/main.py`):
the rule engine over a spreadsheet grid (`validar_encabezados`,
`buscar_preguntas_duplicadas`, `buscar_caracteres_prohibidos`), the report
generator (`generar_reporte`) and the ephemeral download store
(`cleanup_downloads`, `register_download`, `download_token`).

The grid is modelled as a list of rows, each row a list of cell values; a
cell value is absent (`none`, Python `None`), a text (`str`) or an integer
(`int`, standing for the numeric cell values).  Python truthiness on cell
values and `str()` conversion are modelled explicitly.  The store is a
key/value list with Python-`dict` semantics (insertion order preserved,
assignment replaces in place); clock readings are explicit arguments, in
seconds for the store and as a calendar structure for `strftime`.
-/

namespace Validador

/-- A cell value as `openpyxl` hands it to the validators: `None`, a string,
or a number (modelled as an integer). -/
inductive CellValue where
  | none
  | str (s : String)
  | int (n : Int)
deriving DecidableEq, Repr

/-- The active worksheet: rows in order, row 1 first; each row lists the
cell values of columns A, B, C, … in order.  `sheet.max_row` is the number
of rows. -/
abbrev Sheet := List (List CellValue)

/-- Model of `sheet[coord].value` for 1-based `row` and `col`; cells outside
the populated area read as `None` (openpyxl returns an empty cell there). -/
def getCell (sheet : Sheet) (row col : Nat) : CellValue :=
  (sheet.getD (row - 1) []).getD (col - 1) CellValue.none

/-- Python truthiness of a cell value: `None`, `""` and `0` are falsy. -/
def truthy : CellValue → Bool
  | CellValue.none => false
  | CellValue.str s => s != ""
  | CellValue.int n => n != 0

/-- Python `str()` on a cell value. -/
def pyStr : CellValue → String
  | CellValue.none => "None"
  | CellValue.str s => s
  | CellValue.int n => toString n

/-- Python `str.strip()`: drop leading and trailing whitespace. -/
def pyStrip (s : String) : String :=
  String.mk (((s.toList.dropWhile Char.isWhitespace).reverse.dropWhile
    Char.isWhitespace).reverse)

/-- Constant `ENCABEZADOS_ESPERADOS` from the configuration block. -/
def ENCABEZADOS_ESPERADOS : List String := ["Capitulo", "Subcapitulo", "Preguntas"]

/-- The message appended for a mismatched header cell. -/
def encabezadoMsg (celda esperado valor : String) : String :=
  "❌ Celda " ++ celda ++ " debería contener \x27" ++ esperado ++
    "\x27, pero tiene \x27" ++ valor ++ "\x27"

/-- Line 50 of the source: the value the header check compares for a cell of
row 1 — `str(sheet[celda].value).strip() if sheet[celda].value else ""`,
that is, the trimmed string form of the cell with falsy cells read as the
empty string. -/
def headerValue (sheet : Sheet) (col : Nat) : String :=
  let raw := getCell sheet 1 col
  if truthy raw then pyStrip (pyStr raw) else ""

/-- Function `validar_encabezados(sheet)`: for columns A, B, C of row 1
(coordinates `A1`, `B1`, `C1`, modelled as letter/index pairs), compare
`headerValue` with the expected label and collect one message per
mismatch. -/
def validar_encabezados (sheet : Sheet) : List String :=
  (List.zip [("A", 1), ("B", 2), ("C", 3)] ENCABEZADOS_ESPERADOS).foldl
    (fun errores ce =>
      let celda := ce.1.1 ++ "1"
      let valor := headerValue sheet ce.1.2
      if valor ≠ ce.2 then errores ++ [encabezadoMsg celda ce.2 valor] else errores)
    []

/-- Specification-side header check: one finding per mismatched column,
column A first, each column judged independently of the others. -/
def spec_validar_encabezados (sheet : Sheet) : List String :=
  (if headerValue sheet 1 = "Capitulo" then []
    else [encabezadoMsg "A1" "Capitulo" (headerValue sheet 1)]) ++
  (if headerValue sheet 2 = "Subcapitulo" then []
    else [encabezadoMsg "B1" "Subcapitulo" (headerValue sheet 2)]) ++
  (if headerValue sheet 3 = "Preguntas" then []
    else [encabezadoMsg "C1" "Preguntas" (headerValue sheet 3)])

/-- Python `repr` of a list of integers, as an f-string renders `{v}`:
`"[2, 3]"`. -/
def pyListRepr (l : List Nat) : String :=
  "[" ++ String.intercalate ", " (l.map toString) ++ "]"

/-- Model of `preguntas[valor].append(row)` on the insertion-ordered dict of
`buscar_preguntas_duplicadas`: append `row` to the entry of key `k`,
creating the entry at the end if the key is new (`defaultdict(list)`). -/
def insertPregunta : List (String × List Nat) → String → Nat → List (String × List Nat)
  | [], k, r => [(k, [r])]
  | e :: rest, k, r =>
    if e.1 = k then (e.1, e.2 ++ [r]) :: rest else e :: insertPregunta rest k r

/-- The dict built by the loop of `buscar_preguntas_duplicadas`: for each row
2..max_row, if the column-C value is truthy, insert the trimmed string
form under the row number. -/
def sheetPreguntas (sheet : Sheet) : List (String × List Nat) :=
  (List.range' 2 (sheet.length - 1)).foldl
    (fun preguntas row =>
      let valor := getCell sheet row 3
      if truthy valor then insertPregunta preguntas (pyStrip (pyStr valor)) row
      else preguntas)
    []

/-- The message emitted for one duplicate group. -/
def preguntaMsg (k : String) (v : List Nat) : String :=
  "❌ Pregunta duplicada en filas " ++ pyListRepr v ++ ": \x27" ++ k ++ "\x27"

/-- Function `buscar_preguntas_duplicadas(sheet)`: one message per dict entry
whose row list has more than one element, in dict insertion order. -/
def buscar_preguntas_duplicadas (sheet : Sheet) : List String :=
  ((sheetPreguntas sheet).filter (fun kv => 1 < kv.2.length)).map
    (fun kv => preguntaMsg kv.1 kv.2)

/-- Specification-side view of the scan of column C: the `(row, trimmed
value)` pairs of the truthy cells of rows 2..max_row, in row order. -/
def colCPairs (sheet : Sheet) : List (Nat × String) :=
  (List.range' 2 (sheet.length - 1)).filterMap
    (fun row =>
      let valor := getCell sheet row 3
      if truthy valor then some (row, pyStrip (pyStr valor)) else Option.none)

/-- Accumulate the distinct trimmed values in first-occurrence order. -/
def addKey (acc : List String) (p : Nat × String) : List String :=
  if p.2 ∈ acc then acc else acc ++ [p.2]

/-- The distinct trimmed values of the scanned pairs, in order of first
occurrence. -/
def spec_keys (ps : List (Nat × String)) : List String :=
  ps.foldl addKey []

/-- All rows carrying trimmed value `k`, in row order. -/
def spec_rows (ps : List (Nat × String)) (k : String) : List Nat :=
  (ps.filter (fun p => p.2 = k)).map (fun p => p.1)

/-- Specification-side grouping: one group per distinct trimmed value (in
first-occurrence order) holding every row with that value, in row order. -/
def spec_groups (ps : List (Nat × String)) : List (String × List Nat) :=
  (spec_keys ps).map (fun k => (k, spec_rows ps k))

/-- The end-to-end example sheet of the specification: matching header row,
rows 2 and 3 holding the same question. -/
def sheetEjemplo : Sheet :=
  [[CellValue.str "Capitulo", CellValue.str "Subcapitulo", CellValue.str "Preguntas"],
   [CellValue.str "1", CellValue.str "a", CellValue.str "¿Qué es X?"],
   [CellValue.str "1", CellValue.str "b", CellValue.str "¿Qué es X?"]]

/-- Constant `CARACTERES_PROHIBIDOS` from the configuration block, as a list
of characters. -/
def CARACTERES_PROHIBIDOS : List Char :=
  "!@#$%&/()=¡¨*[];:_°|¬".toList

/-- Column letters in `openpyxl` style (bijective base 26): 1 maps to `A`,
26 to `Z`, 27 to `AA`, and so on. -/
def colLetter : Nat → String
  | 0 => ""
  | n + 1 => colLetter (n / 26) ++ String.singleton (Char.ofNat (65 + n % 26))
decreasing_by simp_wf; omega

/-- Model of `cell.coordinate` of the cell at 1-based `(row, col)`, e.g. `C5`. -/
def cellCoordinate (row col : Nat) : String := colLetter col ++ toString row

/-- The `for c in cell.value: … break` scan: the first character of the list
that belongs to the forbidden set, if any. -/
def scanProhibido : List Char → Option Char
  | [] => Option.none
  | c :: cs => if c ∈ CARACTERES_PROHIBIDOS then some c else scanProhibido cs

/-- The message emitted for a cell containing a forbidden character. -/
def prohibidoMsg (coordStr : String) (c : Char) (s : String) : String :=
  "❌ Celda " ++ coordStr ++ " contiene caracter prohibido \x27" ++
    String.singleton c ++ "\x27 en: \x27" ++ s ++ "\x27"

/-- The body of the cell loop of `buscar_caracteres_prohibidos`: if
`cell.value and isinstance(cell.value, str)`, scan its characters and
append one message on the first forbidden character. -/
def revisarCelda (errores : List String) (fila : List CellValue) (i j : Nat) :
    List String :=
  let v := fila.getD (j - 1) CellValue.none
  if truthy v then
    match v with
    | CellValue.str s =>
      match scanProhibido s.toList with
      | some c => errores ++ [prohibidoMsg (cellCoordinate i j) c s]
      | Option.none => errores
    | _ => errores
  else errores

/-- One row of the `iter_rows` loop: visit the cells of row `i` in column
order. -/
def revisarFila (errores : List String) (sheet : Sheet) (i : Nat) : List String :=
  let row := sheet.getD (i - 1) []
  (List.range' 1 row.length).foldl (fun errores j => revisarCelda errores row i j)
    errores

/-- Function `buscar_caracteres_prohibidos(sheet)`: scan every cell of rows
1..max_row in row-major order. -/
def buscar_caracteres_prohibidos (sheet : Sheet) : List String :=
  (List.range' 1 sheet.length).foldl (fun errores i => revisarFila errores sheet i) []

/-- Specification-side finding of one cell: text cells only, at most one
message, referencing the leftmost forbidden character (head of the
filtered character list) and the full cell text. -/
def cellFinding (fila : List CellValue) (i j : Nat) : Option String :=
  match fila.getD (j - 1) CellValue.none with
  | CellValue.str s =>
    if s ≠ "" then
      ((s.toList.filter (fun c => c ∈ CARACTERES_PROHIBIDOS)).head?).map
        (fun c => prohibidoMsg (cellCoordinate i j) c s)
    else Option.none
  | _ => Option.none

/-- Specification-side forbidden-character check: the per-cell findings in
row-major order. -/
def spec_buscar_caracteres_prohibidos (sheet : Sheet) : List String :=
  ((List.range' 1 sheet.length).map (fun i =>
    let row := sheet.getD (i - 1) []
    (List.range' 1 row.length).filterMap (fun j => cellFinding row i j))).flatten

/-- A clock reading as `datetime.now()` hands it to `strftime`. -/
structure PyDateTime where
  year : Nat
  month : Nat
  day : Nat
  hour : Nat
  minute : Nat
  second : Nat
deriving DecidableEq, Repr

/-- Zero-pad the decimal form of `n` to width `w`. -/
def padNum (w : Nat) (n : Nat) : String :=
  let s := toString n
  String.mk (List.replicate (w - s.length) '0') ++ s

/-- Model of `datetime.strftime("%Y%m%d_%H%M%S")`. -/
def formatFecha (t : PyDateTime) : String :=
  padNum 4 t.year ++ padNum 2 t.month ++ padNum 2 t.day ++ "_" ++
    padNum 2 t.hour ++ padNum 2 t.minute ++ padNum 2 t.second

/-- Model of `os.path.basename`: the part of the path after the last slash. -/
def basename (p : String) : String :=
  String.mk ((p.toList.reverse.takeWhile (fun c => c != '/')).reverse)

/-- The root part of `os.path.splitext`: drop the extension at the last dot,
except when every character before that dot is itself a dot (leading dots
of a basename never start an extension). -/
def splitextRoot (p : String) : String :=
  let cs := p.toList
  match ((List.range cs.length).filter (fun i => cs.getD i ' ' = '.')).getLast? with
  | Option.none => p
  | some i => if (cs.take i).any (fun c => c != '.') then String.mk (cs.take i) else p

/-- The success line of the report. -/
def REPORTE_OK_LINE : String := "✅ VALIDACIÓN EXITOSA: No se encontraron errores.\n"

/-- The failure header of the report (with its trailing blank line). -/
def REPORTE_FAIL_HEADER : String := "❌ VALIDACIÓN FALLIDA: Se encontraron errores:\n\n"

/-- Function `generar_reporte(errores, nombre_archivo)` with the
`datetime.now()` reading passed explicitly: the UTF-8 encoded report body
(the `StringIO` writes concatenated) and the derived filename. -/
def generar_reporte (errores : List String) (nombre_archivo : String)
    (now : PyDateTime) : ByteArray × String :=
  let fecha := formatFecha now
  let nombre := "reporte_errores_" ++ splitextRoot (basename nombre_archivo) ++ "_" ++
    fecha ++ ".txt"
  let body :=
    if errores.isEmpty then REPORTE_OK_LINE
    else errores.foldl (fun acc err => acc ++ (err ++ "\n")) REPORTE_FAIL_HEADER
  (body.toUTF8, nombre)

/-- Specification-side report body: the success line, or the failure header
followed by one line per finding in input order. -/
def spec_reporte_body (errores : List String) : String :=
  if errores = [] then REPORTE_OK_LINE
  else REPORTE_FAIL_HEADER ++
    (errores.map (fun err => err ++ "\n")).foldr (fun a b => a ++ b) ""

/-- A sheet whose A1 holds the number 0 and whose column C mixes a duplicated
text with a 0. -/
def sheetFalsy : Sheet :=
  [[CellValue.int 0, CellValue.str "Subcapitulo", CellValue.str "Preguntas"],
   [CellValue.none, CellValue.none, CellValue.str "dup"],
   [CellValue.none, CellValue.none, CellValue.int 0],
   [CellValue.none, CellValue.none, CellValue.str "dup"]]

/-- An entry of the `DOWNLOADS` dict: the 4-tuple
`(data, filename, media_type, expires_at)`, the timestamp in seconds. -/
abbrev Entry := ByteArray × String × String × Nat

/-- The `expires_at` component of an entry. -/
def entryExpiresAt (e : Entry) : Nat := e.2.2.2

/-- The `DOWNLOADS` dict: insertion-ordered key/value pairs with unique keys
in every state the code reaches. -/
abbrev Store := List (String × Entry)

/-- Constant `DOWNLOAD_TTL_SECS` from the configuration block (10 minutes). -/
def DOWNLOAD_TTL_SECS : Nat := 600

/-- Model of `DOWNLOADS.get(token)`: the first entry under the key, if any. -/
def dictGet (s : Store) (k : String) : Option Entry :=
  (s.find? (fun e => e.1 = k)).map (fun e => e.2)

/-- Model of `DOWNLOADS[token] = v`: replace the entry in place if the key
exists, else append it (Python dict assignment keeps insertion order). -/
def dictInsert : Store → String → Entry → Store
  | [], k, v => [(k, v)]
  | e :: s, k, v => if e.1 = k then (k, v) :: s else e :: dictInsert s k v

/-- Function `cleanup_downloads()` at clock `now`: pop every token whose
`expires_at <= now`. -/
def cleanup_downloads (s : Store) (now : Nat) : Store :=
  s.filter (fun e => ¬ entryExpiresAt e.2 ≤ now)

/-- Function `register_download(data, filename, media_type)`, with the
`datetime.utcnow()` reading and the `secrets.token_urlsafe(16)` result
passed explicitly: sweep, then insert the artifact under the fresh token
with `expires_at = now + DOWNLOAD_TTL_SECS`, and return the token.  The
generated token is *not* compared against the current key set. -/
def register_download (s : Store) (token : String) (data : ByteArray)
    (filename media_type : String) (now : Nat) : Store × String :=
  let s1 := cleanup_downloads s now
  let expires_at := now + DOWNLOAD_TTL_SECS
  (dictInsert s1 token (data, filename, media_type, expires_at), token)

/-- Outcome of a `GET /download/...` request on the token path. -/
inductive LookupResult where
  /-- HTTP 404 `Link expirado o inválido`: no entry for the token. -/
  | notFound
  /-- HTTP 410 `Link expirado`: entry present but expired. -/
  | expired
  /-- Uncaught `ValueError` (HTTP 500): `data, exp = item` unpacks the
  4-tuple entry into two names. -/
  | unpackError
  /-- HTTP 200 with the payload bytes. -/
  | ok (data : ByteArray)

/-- Function `download_token(token)` at clock `now`: sweep, then look the
token up; a missing token is 404.  A present entry `item` is then unpacked
by `data, exp = item`, but `item` is a 4-tuple, so the unpacking raises
`ValueError`; the expiry check, the 410 branch and the
`StreamingResponse` below it are unreachable. -/
def download_token (s : Store) (token : String) (now : Nat) : Store × LookupResult :=
  let s1 := cleanup_downloads s now
  match dictGet s1 token with
  | Option.none => (s1, LookupResult.notFound)
  | some _item => (s1, LookupResult.unpackError)

/-- Discriminator for the Expired outcome, used to state results positively. -/
def isExpiredResult : LookupResult → Bool
  | LookupResult.expired => true
  | _ => false

/-- The store right after registering one report in an empty store at
`now = 0`. -/
def storeEjemplo : Store :=
  (register_download [] "tok" (ByteArray.mk #[42]) "r.txt" "text/plain" 0).1

/-- A store holding one token that expired at time 5. -/
def storeExpirado : Store := [("tok", (ByteArray.mk #[1], "r.txt", "text/plain", 5))]

/-- A store with one live entry (expires at 100) and one entry already
expired (expires at 3), observed at clock 5. -/
def storeC3 : Store :=
  [("a", (ByteArray.mk #[5], "f", "m", 100)), ("b", (ByteArray.mk #[6], "g", "m", 3))]

/-- A store already holding the very token that the generator is about to
produce, with a far-away expiry. -/
def storeColision : Store := [("tok", (ByteArray.mk #[7], "a.txt", "text/plain", 1000))]

lemma validar_encabezados_eq_spec (sheet : Sheet) :
    validar_encabezados sheet = spec_validar_encabezados sheet := by
  by_cases h1 : headerValue sheet 1 = "Capitulo" <;>
  by_cases h2 : headerValue sheet 2 = "Subcapitulo" <;>
  by_cases h3 : headerValue sheet 3 = "Preguntas" <;>
  simp [validar_encabezados, spec_validar_encabezados, ENCABEZADOS_ESPERADOS, h1, h2, h3]

/-- C5: the header check compares the trimmed values of the first-row cells
in columns 1–3 against `Capitulo`, `Subcapitulo`, `Preguntas` (falsy cells
reading as `""`), yields zero findings iff all three match, and yields
exactly one finding per mismatched column — naming the cell, the expected
label and the actual value — independently of the other columns and
without short-circuiting. -/
theorem C5_header_check (sheet : Sheet) :
    validar_encabezados sheet = spec_validar_encabezados sheet ∧
    (validar_encabezados sheet = [] ↔
      (headerValue sheet 1 = "Capitulo" ∧ headerValue sheet 2 = "Subcapitulo" ∧
        headerValue sheet 3 = "Preguntas")) := by
  refine ⟨validar_encabezados_eq_spec sheet, ?_⟩
  rw [validar_encabezados_eq_spec sheet]
  by_cases h1 : headerValue sheet 1 = "Capitulo" <;>
  by_cases h2 : headerValue sheet 2 = "Subcapitulo" <;>
  by_cases h3 : headerValue sheet 3 = "Preguntas" <;>
  simp [spec_validar_encabezados, h1, h2, h3]

lemma mem_foldl_addKey (ps : List (Nat × String)) (acc : List String) (k : String) :
    k ∈ ps.foldl addKey acc ↔ k ∈ acc ∨ ∃ p ∈ ps, p.2 = k := by
  induction ps generalizing acc with
  | nil => simp
  | cons p ps ih =>
    rw [List.foldl_cons, ih]
    by_cases h : p.2 ∈ acc <;> simp [addKey, h] <;> aesop

lemma nodup_foldl_addKey (ps : List (Nat × String)) (acc : List String)
    (h : acc.Nodup) : (ps.foldl addKey acc).Nodup := by
  induction ps generalizing acc with
  | nil => exact h
  | cons p ps ih =>
    rw [List.foldl_cons]
    refine ih _ ?_
    unfold addKey
    split
    · exact h
    · rename_i hmem
      rw [← List.concat_eq_append]
      exact h.concat hmem

lemma mem_spec_keys (ps : List (Nat × String)) (k : String) :
    k ∈ spec_keys ps ↔ ∃ p ∈ ps, p.2 = k := by
  rw [spec_keys, mem_foldl_addKey]; simp

lemma nodup_spec_keys (ps : List (Nat × String)) : (spec_keys ps).Nodup :=
  nodup_foldl_addKey ps [] List.nodup_nil

lemma spec_keys_append (ps : List (Nat × String)) (p : Nat × String) :
    spec_keys (ps ++ [p]) =
      if p.2 ∈ spec_keys ps then spec_keys ps else spec_keys ps ++ [p.2] := by
  rw [spec_keys, List.foldl_append]; rfl

lemma spec_rows_append (ps : List (Nat × String)) (p : Nat × String) (k : String) :
    spec_rows (ps ++ [p]) k =
      if k = p.2 then spec_rows ps k ++ [p.1] else spec_rows ps k := by
  by_cases h : k = p.2 <;>
    simp [spec_rows, List.filter_append, h, eq_comm]

lemma spec_rows_eq_nil (ps : List (Nat × String)) (k : String)
    (h : k ∉ spec_keys ps) : spec_rows ps k = [] := by
  rw [mem_spec_keys] at h
  push_neg at h
  rw [spec_rows, List.map_eq_nil_iff, List.filter_eq_nil_iff]
  intro p hp
  simpa using fun hpk => h p hp hpk

lemma insertPregunta_not_mem (l : List (String × List Nat)) (k : String) (r : Nat)
    (h : k ∉ l.map Prod.fst) : insertPregunta l k r = l ++ [(k, [r])] := by
  induction l with
  | nil => rfl
  | cons e rest ih =>
    simp only [List.map_cons, List.mem_cons] at h
    push_neg at h
    rw [insertPregunta, if_neg (by simpa using (Ne.symm h.1)), ih h.2]
    rfl

lemma insertPregunta_map (keys : List String) (f : String → List Nat)
    (k : String) (r : Nat) (hnd : keys.Nodup) (hk : k ∈ keys) :
    insertPregunta (keys.map (fun k0 => (k0, f k0))) k r =
      keys.map (fun k0 => (k0, if k0 = k then f k0 ++ [r] else f k0)) := by
  induction keys with
  | nil => cases hk
  | cons a as ih =>
    rw [List.map_cons, List.map_cons, insertPregunta]
    by_cases ha : a = k
    · subst ha
      rw [if_pos rfl]
      have : ∀ k0 ∈ as, (fun k0 => (k0, if k0 = a then f k0 ++ [r] else f k0)) k0 =
          (fun k0 => (k0, f k0)) k0 := by
        intro k0 hk0
        have : k0 ≠ a := by
          rintro rfl
          exact (List.nodup_cons.mp hnd).1 hk0
        simp [this]
      rw [List.map_congr_left this]
      simp
    · rw [if_neg ha]
      have hk' : k ∈ as := by
        rcases List.mem_cons.mp hk with h | h
        · exact absurd h.symm ha
        · exact h
      rw [ih (List.nodup_cons.mp hnd).2 hk']
      simp [ha]

lemma foldl_insertPregunta_append (ps : List (Nat × String)) (p : Nat × String) :
    (ps ++ [p]).foldl (fun acc q => insertPregunta acc q.2 q.1) [] =
      insertPregunta (ps.foldl (fun acc q => insertPregunta acc q.2 q.1) []) p.2 p.1 := by
  rw [List.foldl_append]; rfl

lemma map_fst_spec_groups (ps : List (Nat × String)) :
    (spec_groups ps).map Prod.fst = spec_keys ps := by
  rw [spec_groups, List.map_map]
  have he : (Prod.fst ∘ fun k => (k, spec_rows ps k)) = fun k : String => k := rfl
  rw [he]
  simp

/-- The dict produced by the insertion loop is exactly the specification
grouping: keys in first-occurrence order, each carrying all its rows in
row order. -/
lemma foldl_insertPregunta_eq_spec (ps : List (Nat × String)) :
    ps.foldl (fun acc q => insertPregunta acc q.2 q.1) [] = spec_groups ps := by
  induction ps using List.reverseRecOn with
  | nil => rfl
  | append_singleton ps p ih =>
    rw [foldl_insertPregunta_append, ih]
    simp only [spec_groups, spec_keys_append]
    by_cases h : p.2 ∈ spec_keys ps
    · rw [if_pos h,
        insertPregunta_map (spec_keys ps) (spec_rows ps) p.2 p.1 (nodup_spec_keys ps) h]
      refine List.map_congr_left ?_
      intro k hk
      rw [spec_rows_append]
    · have h' : p.2 ∉ ((spec_keys ps).map (fun k => (k, spec_rows ps k))).map Prod.fst := by
        rw [List.map_map]
        simpa [Function.comp] using h
      rw [if_neg h, insertPregunta_not_mem _ _ _ h', List.map_append]
      congr 1
      · refine List.map_congr_left ?_
        intro k hk
        rw [spec_rows_append]
        have : k ≠ p.2 := by rintro rfl; exact h hk
        simp [this]
      · simp [spec_rows_append, spec_rows_eq_nil ps p.2 h]

lemma sheetPreguntas_eq_spec (sheet : Sheet) :
    sheetPreguntas sheet = spec_groups (colCPairs sheet) := by
  rw [← foldl_insertPregunta_eq_spec, sheetPreguntas, colCPairs]
  generalize List.range' 2 (sheet.length - 1) = rows
  induction rows using List.reverseRecOn with
  | nil => rfl
  | append_singleton rows row ih =>
    rw [List.foldl_append, List.filterMap_append, List.foldl_append, ih]
    by_cases h : truthy (getCell sheet row 3) <;>
      simp [h]

lemma map_fst_colCPairs_sublist (sheet : Sheet) :
    List.Sublist ((colCPairs sheet).map Prod.fst) (List.range' 2 (sheet.length - 1)) := by
  rw [colCPairs]
  generalize List.range' 2 (sheet.length - 1) = rows
  induction rows with
  | nil => simp
  | cons r rows ih =>
    rw [List.filterMap_cons]
    by_cases h : truthy (getCell sheet r 3)
    · simp only [h, if_true, List.map_cons]
      exact List.Sublist.cons₂ r ih
    · simp only [h, if_false]
      exact List.Sublist.cons r ih

lemma spec_rows_sublist (ps : List (Nat × String)) (k : String) :
    List.Sublist (spec_rows ps k) (ps.map Prod.fst) := by
  rw [spec_rows]
  exact List.Sublist.map Prod.fst (List.filter_sublist ps)

lemma sheetPreguntas_rows_pairwise (sheet : Sheet) :
    ∀ kv ∈ sheetPreguntas sheet, kv.2.Pairwise (· < ·) := by
  intro kv hkv
  rw [sheetPreguntas_eq_spec, spec_groups] at hkv
  obtain ⟨k, hk, rfl⟩ := List.mem_map.mp hkv
  refine List.Pairwise.sublist ?_ (List.pairwise_lt_range' 2 (sheet.length - 1))
  exact List.Sublist.trans (spec_rows_sublist _ _) (map_fst_colCPairs_sublist sheet)

/-- C6: the duplicate-question check reads column 3 from row 2 through the
last populated row, trims each truthy value, groups rows by exact trimmed
equality (groups in first-occurrence order, rows in row order), and emits
exactly one finding per group of more than one row, listing all its row
numbers and the shared trimmed text; singleton groups and falsy cells
produce nothing.  Each dict entry carries the complete, strictly
increasing list of rows sharing its value. -/
theorem C6_duplicate_questions (sheet : Sheet) :
    buscar_preguntas_duplicadas sheet =
      ((spec_groups (colCPairs sheet)).filter (fun kv => 1 < kv.2.length)).map
        (fun kv => preguntaMsg kv.1 kv.2) ∧
    ∀ kv ∈ sheetPreguntas sheet,
      kv.2 = spec_rows (colCPairs sheet) kv.1 ∧ kv.2.Pairwise (· < ·) := by
  constructor
  · rw [buscar_preguntas_duplicadas, sheetPreguntas_eq_spec]
  · intro kv hkv
    refine ⟨?_, sheetPreguntas_rows_pairwise sheet kv hkv⟩
    rw [sheetPreguntas_eq_spec, spec_groups] at hkv
    obtain ⟨k, hk, rfl⟩ := List.mem_map.mp hkv
    rfl

/-- Witness for C6 on the specification's end-to-end example: the duplicate
pair in rows 2 and 3 yields exactly one finding listing both rows, and
the dict entry for the shared text is complete and in row order. -/
theorem C6_duplicate_questions_witness :
    buscar_preguntas_duplicadas sheetEjemplo = [preguntaMsg "¿Qué es X?" [2, 3]] ∧
    ([2, 3] : List Nat).Pairwise (· < ·) := by
  have h := C6_duplicate_questions sheetEjemplo
  constructor
  · rw [h.1]; decide
  · exact (h.2 ("¿Qué es X?", [2, 3]) (by decide)).2

lemma scanProhibido_eq_head_filter (cs : List Char) :
    scanProhibido cs = (cs.filter (fun c => c ∈ CARACTERES_PROHIBIDOS)).head? := by
  induction cs with
  | nil => rfl
  | cons c cs ih =>
    rw [scanProhibido]
    by_cases h : c ∈ CARACTERES_PROHIBIDOS <;> simp [h, ih]

lemma revisarCelda_eq (errores : List String) (fila : List CellValue) (i j : Nat) :
    revisarCelda errores fila i j = errores ++ (cellFinding fila i j).toList := by
  rw [revisarCelda, cellFinding]
  cases hv : fila.getD (j - 1) CellValue.none with
  | none => simp [truthy]
  | int n => by_cases h : n = 0 <;> simp [truthy, h]
  | str s =>
    by_cases h : s = ""
    · subst h; simp [truthy]
    · simp only [truthy, bne_iff_ne, ne_eq, h, not_false_iff, if_true,
        scanProhibido_eq_head_filter]
      cases (s.toList.filter (fun c => c ∈ CARACTERES_PROHIBIDOS)).head? <;> simp

lemma revisarFila_eq (errores : List String) (sheet : Sheet) (i : Nat) :
    revisarFila errores sheet i =
      errores ++ (List.range' 1 (sheet.getD (i - 1) []).length).filterMap
        (fun j => cellFinding (sheet.getD (i - 1) []) i j) := by
  rw [revisarFila]
  generalize sheet.getD (i - 1) [] = row
  generalize List.range' 1 row.length = js
  induction js generalizing errores with
  | nil => simp
  | cons j js ih =>
    rw [List.foldl_cons, List.filterMap_cons, ih, revisarCelda_eq]
    cases cellFinding row i j <;> simp

/-- C7: for every grid, the forbidden-character check emits at most one
finding per cell — none when the cell's text has no forbidden character,
otherwise exactly one naming the coordinate, the first (leftmost)
forbidden character and the full text — and skips non-text (numeric or
empty) cells entirely, visiting cells in row-major order. -/
theorem C7_forbidden_characters (sheet : Sheet) :
    buscar_caracteres_prohibidos sheet = spec_buscar_caracteres_prohibidos sheet := by
  rw [buscar_caracteres_prohibidos, spec_buscar_caracteres_prohibidos]
  suffices h : ∀ (is : List Nat) (init : List String),
      is.foldl (fun errores i => revisarFila errores sheet i) init =
        init ++ (is.map (fun i =>
          let row := sheet.getD (i - 1) []
          (List.range' 1 row.length).filterMap (fun j => cellFinding row i j))).flatten by
    simpa using h (List.range' 1 sheet.length) []
  intro is
  induction is with
  | nil => simp
  | cons i is ih =>
    intro init
    rw [List.foldl_cons, ih, revisarFila_eq]
    simp

lemma foldl_write (l : List String) : ∀ init : String,
    l.foldl (fun acc err => acc ++ (err ++ "\n")) init =
      init ++ (l.map (fun err => err ++ "\n")).foldr (fun a b => a ++ b) "" := by
  induction l with
  | nil => intro init; simp [String.append_empty]
  | cons e l ih =>
    intro init
    rw [List.foldl_cons, ih, List.map_cons, List.foldr_cons]
    rw [String.append_assoc, String.append_assoc]

/-- C8: the generated report bytes are exactly the UTF-8 encoding of the
single success line when the finding list is empty, and otherwise of the
failure header followed by each finding's message on its own line, in
input order, each line terminated by a newline. -/
theorem C8_report_bytes (errores : List String) (nombre_archivo : String)
    (now : PyDateTime) :
    (generar_reporte errores nombre_archivo now).1 = (spec_reporte_body errores).toUTF8 := by
  rw [generar_reporte, spec_reporte_body]
  cases errores with
  | nil => simp
  | cons e l =>
    simp only [List.isEmpty_cons, Bool.false_eq_true, if_false, List.cons_ne_nil]
    exact congrArg String.toUTF8 (foldl_write (e :: l) REPORTE_FAIL_HEADER)

/-- C9: report generation is deterministic — identical findings, source
filename and clock reading give byte-identical output — and the derived
filename is `reporte_errores_` + source stem + `_` + `YYYYMMDD_HHMMSS` +
`.txt`, the clock reading being an explicit input. -/
theorem C9_report_deterministic (e1 e2 : List String) (n1 n2 : String)
    (t1 t2 : PyDateTime) (he : e1 = e2) (hn : n1 = n2) (ht : t1 = t2) :
    generar_reporte e1 n1 t1 = generar_reporte e2 n2 t2 ∧
    (generar_reporte e1 n1 t1).2 =
      "reporte_errores_" ++ splitextRoot (basename n1) ++ "_" ++ formatFecha t1 ++ ".txt" := by
  subst he; subst hn; subst ht
  exact ⟨rfl, rfl⟩

/-- Witness for C9 at a fixed clock reading and filename. -/
theorem C9_report_deterministic_witness :
    generar_reporte [] "matriz.xlsx" ⟨2026, 10, 12, 9, 30, 5⟩ =
      generar_reporte [] "matriz.xlsx" ⟨2026, 10, 12, 9, 30, 5⟩ ∧
    (generar_reporte [] "matriz.xlsx" ⟨2026, 10, 12, 9, 30, 5⟩).2 =
      "reporte_errores_matriz_20261012_093005.txt" := by
  have h := C9_report_deterministic [] [] "matriz.xlsx" "matriz.xlsx"
    ⟨2026, 10, 12, 9, 30, 5⟩ ⟨2026, 10, 12, 9, 30, 5⟩ rfl rfl rfl
  refine ⟨h.1, ?_⟩
  rw [h.2]
  decide

/-- C10: a present-but-falsy cell value — numeric zero or the empty string —
is treated as having no value: the header check compares it as the empty
string (so the column-A finding reports two bare quotes, not the
stringified value), and the duplicate-question check skips such a row
entirely, so a column-3 value of 0 never participates in a duplicate
group. -/
theorem C10_falsy_cells (sheet : Sheet) :
    ((getCell sheet 1 1 = CellValue.int 0 ∨ getCell sheet 1 1 = CellValue.str "") →
      (validar_encabezados sheet).head? = some (encabezadoMsg "A1" "Capitulo" "")) ∧
    ∀ row : Nat, getCell sheet row 3 = CellValue.int 0 →
      ∀ kv ∈ sheetPreguntas sheet, row ∉ kv.2 := by
  constructor
  · intro h
    have hv : headerValue sheet 1 = "" := by
      rcases h with h | h <;> simp [headerValue, h, truthy]
    rw [validar_encabezados_eq_spec, spec_validar_encabezados, hv]
    rw [if_neg (by decide)]
    rfl
  · intro row hrow kv hkv hmem
    rw [sheetPreguntas_eq_spec, spec_groups] at hkv
    obtain ⟨k, hk, rfl⟩ := List.mem_map.mp hkv
    have hsub : row ∈ (colCPairs sheet).map Prod.fst :=
      (spec_rows_sublist (colCPairs sheet) k).subset hmem
    obtain ⟨p, hp, hpr⟩ := List.mem_map.mp hsub
    rw [colCPairs] at hp
    obtain ⟨r, _hr, hco⟩ := List.mem_filterMap.mp hp
    by_cases ht : truthy (getCell sheet r 3)
    · simp only [ht, if_true] at hco
      injection hco with hco
      have hr1 : r = row := by rw [← hpr, ← hco]
      rw [hr1, hrow] at ht
      simp [truthy] at ht
    · simp only [ht, if_false] at hco
      exact Option.noConfusion hco

/-- Witness for C10: on `sheetFalsy` the A1 finding reports the empty value,
and row 3 (whose column-C value is 0) is absent from the duplicate group
of rows 2 and 4. -/
theorem C10_falsy_cells_witness :
    (validar_encabezados sheetFalsy).head? = some (encabezadoMsg "A1" "Capitulo" "") ∧
    (3 : Nat) ∉ (("dup", [2, 4]) : String × List Nat).2 := by
  have h := C10_falsy_cells sheetFalsy
  exact ⟨h.1 (Or.inl rfl), h.2 3 rfl ("dup", [2, 4]) (by decide)⟩

lemma download_token_fst (s : Store) (tok : String) (now : Nat) :
    (download_token s tok now).1 = cleanup_downloads s now := by
  rw [download_token]
  cases dictGet (cleanup_downloads s now) tok <;> rfl

lemma mem_cleanup (e : String × Entry) (s : Store) (now : Nat)
    (h : e ∈ cleanup_downloads s now) : e ∈ s ∧ now < entryExpiresAt e.2 := by
  rw [cleanup_downloads, List.mem_filter] at h
  refine ⟨h.1, ?_⟩
  have := h.2
  simpa [Nat.not_le] using this

lemma cleanup_idem (s : Store) (now : Nat) :
    cleanup_downloads (cleanup_downloads s now) now = cleanup_downloads s now := by
  rw [cleanup_downloads, cleanup_downloads, List.filter_filter]
  refine List.filter_congr ?_
  intro e _
  simp

lemma mem_dictInsert (e : String × Entry) (s : Store) (k : String) (v : Entry)
    (h : e ∈ dictInsert s k v) : e ∈ s ∨ e = (k, v) := by
  induction s with
  | nil =>
    rw [dictInsert] at h
    simp only [List.mem_singleton] at h
    exact Or.inr h
  | cons f s ih =>
    rw [dictInsert] at h
    by_cases hf : f.1 = k
    · rw [if_pos hf] at h
      rcases List.mem_cons.mp h with h | h
      · exact Or.inr h
      · exact Or.inl (List.mem_cons_of_mem f h)
    · rw [if_neg hf] at h
      rcases List.mem_cons.mp h with h | h
      · exact Or.inl (h ▸ List.mem_cons_self f s)
      · rcases ih h with h | h
        · exact Or.inl (List.mem_cons_of_mem f h)
        · exact Or.inr h

lemma dictGet_dictInsert (s : Store) (k : String) (v : Entry) :
    dictGet (dictInsert s k v) k = some v := by
  induction s with
  | nil =>
    rw [dictInsert, dictGet, List.find?_cons_of_pos _ (by simp)]
    rfl
  | cons e s ih =>
    rw [dictInsert]
    by_cases h : e.1 = k
    · rw [if_pos h]
      rw [dictGet, List.find?_cons_of_pos _ (by simp)]
      rfl
    · rw [if_neg h]
      rw [dictGet, List.find?_cons_of_neg _ (by simpa using h)]
      rw [dictGet] at ih
      exact ih

lemma dictGet_eq_none_of_no_key (s : Store) (tok : String)
    (h : ∀ e ∈ s, e.1 ≠ tok) : dictGet s tok = Option.none := by
  rw [dictGet]
  have : s.find? (fun e => e.1 = tok) = Option.none := by
    rw [List.find?_eq_none]
    intro e he
    simpa using h e he
  rw [this]
  rfl

lemma dictGet_cleanup_none (s : Store) (now : Nat) (tok : String)
    (h : ∀ e ∈ s, e.1 = tok → entryExpiresAt e.2 ≤ now) :
    dictGet (cleanup_downloads s now) tok = Option.none := by
  refine dictGet_eq_none_of_no_key _ _ ?_
  intro e he hke
  obtain ⟨hes, hlt⟩ := mem_cleanup e s now he
  exact absurd (h e hes hke) (Nat.not_le.mpr hlt)

lemma register_download_fst (s : Store) (tok : String) (d : ByteArray)
    (f m : String) (now : Nat) :
    (register_download s tok d f m now).1 =
      dictInsert (cleanup_downloads s now) tok (d, f, m, now + DOWNLOAD_TTL_SECS) := rfl

lemma download_token_snd (s : Store) (tok : String) (now : Nat) :
    (download_token s tok now).2 =
      match dictGet (cleanup_downloads s now) tok with
      | Option.none => LookupResult.notFound
      | some _ => LookupResult.unpackError := by
  cases h : dictGet (cleanup_downloads s now) tok <;> simp [download_token, h]

/-- C1 (bug exhibit): looking a freshly registered token up well before its
expiry does not return the stored payload — the 4-into-2 tuple unpacking
`data, exp = item` raises `ValueError`, so the endpoint answers HTTP 500;
the entry itself stays in the store, unconsumed. -/
theorem C1_roundtrip_unpack_bug :
    (download_token storeEjemplo "tok" 1).2 = LookupResult.unpackError ∧
    dictGet (download_token storeEjemplo "tok" 1).1 "tok" =
      some (ByteArray.mk #[42], "r.txt", "text/plain", 600) := by
  exact ⟨rfl, rfl⟩

/-- C2 (counterexample): at `now = 10` the lookup of the expired token
reports NotFound (HTTP 404), not Expired — the sweep at the start of
`download_token` already removed the entry, so the dedicated 410 branch
is not taken. -/
theorem C2_expired_reports_notFound :
    (download_token storeExpirado "tok" 10).2 = LookupResult.notFound ∧
    isExpiredResult (download_token storeExpirado "tok" 10).2 = false := by
  exact ⟨rfl, rfl⟩

lemma no_key_of_dictGet_none (s : Store) (tok : String)
    (h : dictGet s tok = Option.none) : ∀ e ∈ s, e.1 ≠ tok := by
  rw [dictGet, Option.map_eq_none'] at h
  intro e he
  simpa using List.find?_eq_none.mp h e he

lemma download_token_of_none (s : Store) (tok : String) (now : Nat)
    (h : dictGet (cleanup_downloads s now) tok = Option.none) :
    download_token s tok now = (cleanup_downloads s now, LookupResult.notFound) := by
  rw [download_token, h]

/-- C2 (amended): a lookup finding its token only in expired entries removes
them via the initial sweep and reports NotFound; the token is gone from
the store afterwards, and every later lookup of it also reports NotFound.
The dedicated Expired outcome is never produced when the sweep and the
expiry check observe the same clock. -/
theorem C2_expired_lookup_notFound (s : Store) (tok : String) (now : Nat) (e : Entry)
    (hget : dictGet s tok = some e) (hexp : entryExpiresAt e ≤ now)
    (hall : ∀ f ∈ s, f.1 = tok → entryExpiresAt f.2 ≤ now) :
    (download_token s tok now).2 = LookupResult.notFound ∧
    dictGet (download_token s tok now).1 tok = Option.none ∧
    ∀ now2 : Nat,
      (download_token (download_token s tok now).1 tok now2).2 = LookupResult.notFound := by
  have hnone : dictGet (cleanup_downloads s now) tok = Option.none :=
    dictGet_cleanup_none s now tok hall
  have hdt := download_token_of_none s tok now hnone
  refine ⟨by rw [hdt], by rw [hdt]; exact hnone, ?_⟩
  intro now2
  rw [hdt]
  have hnone2 : dictGet (cleanup_downloads (cleanup_downloads s now) now2) tok =
      Option.none := by
    refine dictGet_eq_none_of_no_key _ _ ?_
    intro f hf
    exact no_key_of_dictGet_none _ _ hnone f (mem_cleanup f _ now2 hf).1
  rw [download_token_of_none _ _ _ hnone2]

/-- Witness for C2's amended statement on the concrete expired store. -/
theorem C2_expired_lookup_notFound_witness :
    (download_token storeExpirado "tok" 10).2 = LookupResult.notFound ∧
    dictGet (download_token storeExpirado "tok" 10).1 "tok" = Option.none := by
  have h := C2_expired_lookup_notFound storeExpirado "tok" 10
    (ByteArray.mk #[1], "r.txt", "text/plain", 5) rfl (by decide)
    (by intro f hf hk
        rcases List.mem_singleton.mp hf with rfl
        decide)
  exact ⟨h.1, h.2.1⟩

/-- C3: both store operations sweep first — each factors through
`cleanup_downloads` — every entry surviving a `register_download` or
`download_token` call is unexpired at that call's clock reading, and a
lookup never returns the payload of an entry expired at its clock reading
(the final implication holds vacuously: the unpacking bug of C1 prevents
`download_token` from ever producing a payload at all). -/
theorem C3_no_expired_returned (s : Store) (tok : String) (d : ByteArray)
    (f m : String) (now : Nat) :
    (∀ e ∈ (download_token s tok now).1, now < entryExpiresAt e.2) ∧
    (∀ e ∈ (register_download s tok d f m now).1, now < entryExpiresAt e.2) ∧
    download_token s tok now = download_token (cleanup_downloads s now) tok now ∧
    register_download s tok d f m now =
      register_download (cleanup_downloads s now) tok d f m now ∧
    ∀ b : ByteArray, (download_token s tok now).2 = LookupResult.ok b →
      ∃ e ∈ s, now < entryExpiresAt e.2 := by
  refine ⟨?_, ?_, ?_, ?_, ?_⟩
  · rw [download_token_fst]
    intro e he
    exact (mem_cleanup e s now he).2
  · rw [register_download_fst]
    intro e he
    rcases mem_dictInsert e _ _ _ he with h | h
    · exact (mem_cleanup e s now h).2
    · rw [h]
      simp [entryExpiresAt, DOWNLOAD_TTL_SECS]
  · rw [download_token, download_token, cleanup_idem]
  · rw [register_download, register_download, cleanup_idem]
  · intro b hb
    rw [download_token_snd] at hb
    cases hdg : dictGet (cleanup_downloads s now) tok <;> rw [hdg] at hb <;>
      exact LookupResult.noConfusion hb

/-- Witness for C3: after a lookup on `storeC3` at clock 5 the surviving
entry is unexpired, and the lookup factors through the sweep. -/
theorem C3_no_expired_returned_witness :
    (5 : Nat) < entryExpiresAt (ByteArray.mk #[5], "f", "m", 100) ∧
    download_token storeC3 "a" 5 = download_token (cleanup_downloads storeC3 5) "a" 5 := by
  have h := C3_no_expired_returned storeC3 "a" (ByteArray.mk #[9]) "g" "m" 5
  refine ⟨?_, h.2.2.1⟩
  have hpost : (download_token storeC3 "a" 5).1 =
      [("a", (ByteArray.mk #[5], "f", "m", 100))] := rfl
  exact h.1 ("a", (ByteArray.mk #[5], "f", "m", 100))
    (by rw [hpost]; exact List.mem_singleton.mpr rfl)

/-- C4 (counterexample): registering at clock 0 with generated token `tok` —
a key currently present and unexpired — returns that in-use token and
overwrites the existing entry: no uniqueness check against the key set is
performed. -/
theorem C4_collision_overwrites :
    (register_download storeColision "tok" (ByteArray.mk #[9]) "b.txt" "text/plain" 0).2 =
      "tok" ∧
    ("tok", ((ByteArray.mk #[7], "a.txt", "text/plain", 1000) : Entry)) ∈ storeColision ∧
    (0 : Nat) < 1000 ∧
    dictGet (register_download storeColision "tok" (ByteArray.mk #[9]) "b.txt"
      "text/plain" 0).1 "tok" = some (ByteArray.mk #[9], "b.txt", "text/plain", 600) := by
  exact ⟨rfl, List.mem_singleton.mpr rfl, by decide, rfl⟩

/-- C4 (amended): `register_download` returns the freshly generated token
unconditionally and the store afterwards maps that token to the new
artifact with `expires_at = now + DOWNLOAD_TTL_SECS` — if the token was
already a key, its entry is overwritten; uniqueness rests on the
randomness of `secrets.token_urlsafe(16)` alone, not on a check against
the current key set. -/
theorem C4_register_no_uniqueness_check (s : Store) (tok : String) (d : ByteArray)
    (f m : String) (now : Nat) :
    (register_download s tok d f m now).2 = tok ∧
    dictGet (register_download s tok d f m now).1 tok =
      some (d, f, m, now + DOWNLOAD_TTL_SECS) := by
  refine ⟨rfl, ?_⟩
  rw [register_download_fst]
  exact dictGet_dictInsert _ _ _

end Validador
